import Mathlib

/-!
Verification development for `fix_errors.py`, a small utility that rewrites
`AppError::<Tag>(arg)` call sites into structured-literal form via seven
ordered global regex substitutions, plus a driver that applies the rewrite
to a fixed list of files.

The text transform is embedded over `List Char`.  Each of the seven
`re.sub` rules has the shape: a literal pattern, then a greedy
nonempty run of characters other than a stop character (`"` for the six
string rules, `)` for the `ServerNotFound` rule), then a literal closing
part.  Because the captured run may not contain the stop character and the
closing part begins with the stop character, the Python regex match is
deterministic: at a given start position the capture is exactly the run up
to the first stop character, and the match succeeds iff that run is
nonempty and is followed by the literal closing part.  `re.sub` replaces
all non-overlapping occurrences left to right, never rescanning emitted
replacement text.  `subst` below implements exactly that scan.
-/

/-- One `re.sub` rule of `fix_app_error_usage`: literal opening part `pre`,
capture = maximal nonempty run of characters other than `stop`, literal
closing part `suf`, and the replacement template `repl` applied to the
captured text. -/
structure Rule where
  pre : List Char
  stop : Char
  suf : List Char
  repl : List Char → List Char

/-- The capture the rule would take at the start of `s`: the maximal run of
non-stop characters after the literal opening part. -/
def capOf (r : Rule) (s : List Char) : List Char :=
  List.takeWhile (fun c => !(c == r.stop)) (s.drop r.pre.length)

/-- What remains of `s` after the opening part and the capture. -/
def afterCap (r : Rule) (s : List Char) : List Char :=
  (s.drop r.pre.length).drop (capOf r s).length

/-- Attempt to match rule `r` at the start of `s`.  Returns the captured
text and the remainder of `s` after the whole match, or `none`. -/
def matchAt (r : Rule) (s : List Char) : Option (List Char × List Char) :=
  if r.pre.isPrefixOf s ∧ capOf r s ≠ [] ∧ r.suf.isPrefixOf (afterCap r s) then
    some (capOf r s, (afterCap r s).drop r.suf.length)
  else none

/-- Fuel-indexed left-to-right global substitution scan.  At each position
either the rule matches (emit the replacement, continue after the match)
or the head character is copied.  A successful match always consumes at
least one character (the capture is nonempty), so fuel `s.length`
suffices. -/
def substFuel (r : Rule) : Nat → List Char → List Char
  | 0, s => s
  | _ + 1, [] => []
  | n + 1, c :: cs =>
    match matchAt r (c :: cs) with
    | some (cap, rest) => r.repl cap ++ substFuel r n rest
    | none => c :: substFuel r n cs

/-- Global regex substitution of one rule over the whole text: the shallow
embedding of one `re.sub(pattern, repl, content)` call. -/
def subst (r : Rule) (s : List Char) : List Char :=
  substFuel r s.length s

/-- Rule 1: `AppError::FileSystem("([^"]+)")`. -/
def fileSystemRule : Rule where
  pre := "AppError::FileSystem(\"".toList
  stop := '"'
  suf := "\")".toList
  repl := fun m =>
    "AppError::FileSystemError \x7b\n                message: \"".toList ++ m ++
    "\".to_string(),\n                path: \"unknown\".to_string(),\n                operation: \"unknown\".to_string(),\n            \x7d".toList

/-- Rule 2: `AppError::Process("([^"]+)")`. -/
def processRule : Rule where
  pre := "AppError::Process(\"".toList
  stop := '"'
  suf := "\")".toList
  repl := fun m =>
    "AppError::ProcessError \x7b\n                message: \"".toList ++ m ++
    "\".to_string(),\n                process_id: None,\n                operation: \"unknown\".to_string(),\n            \x7d".toList

/-- Rule 3: `AppError::Validation("([^"]+)")`. -/
def validationRule : Rule where
  pre := "AppError::Validation(\"".toList
  stop := '"'
  suf := "\")".toList
  repl := fun m =>
    "AppError::ValidationError \x7b\n                message: \"".toList ++ m ++
    "\".to_string(),\n                field: \"unknown\".to_string(),\n                value: \"unknown\".to_string(),\n            \x7d".toList

/-- Rule 4: `AppError::ServerNotFound(([^)]+))`; the capture is inserted
verbatim (unquoted) as the `server_id` field. -/
def serverNotFoundRule : Rule where
  pre := "AppError::ServerNotFound(".toList
  stop := ')'
  suf := ")".toList
  repl := fun m =>
    "AppError::ServerError \x7b\n                message: \"Server not found\".to_string(),\n                server_id: ".toList ++ m ++
    ",\n                operation: \"get\".to_string(),\n            \x7d".toList

/-- Rule 5: `AppError::Internal("([^"]+)")`. -/
def internalRule : Rule where
  pre := "AppError::Internal(\"".toList
  stop := '"'
  suf := "\")".toList
  repl := fun m =>
    "AppError::InternalError \x7b\n                message: \"".toList ++ m ++
    "\".to_string(),\n                operation: \"unknown\".to_string(),\n            \x7d".toList

/-- Rule 6: `AppError::Authentication("([^"]+)")`. -/
def authenticationRule : Rule where
  pre := "AppError::Authentication(\"".toList
  stop := '"'
  suf := "\")".toList
  repl := fun m =>
    "AppError::AuthenticationError \x7b\n                message: \"".toList ++ m ++
    "\".to_string(),\n                reason: crate::core::error_handler::AuthErrorReason::InternalError,\n            \x7d".toList

/-- Rule 7: `AppError::Authorization("([^"]+)")`. -/
def authorizationRule : Rule where
  pre := "AppError::Authorization(\"".toList
  stop := '"'
  suf := "\")".toList
  repl := fun m =>
    "AppError::AuthorizationError \x7b\n                message: \"".toList ++ m ++
    "\".to_string(),\n                required_permission: \"unknown\".to_string(),\n                user_role: \"unknown\".to_string(),\n            \x7d".toList

/-- The seven substitution rules, in the order the script applies them. -/
def rules : List Rule :=
  [fileSystemRule, processRule, validationRule, serverNotFoundRule,
   internalRule, authenticationRule, authorizationRule]

/-- Apply an arbitrary ordered list of rules left to right. -/
def applyRules (l : List Rule) (s : List Char) : List Char :=
  l.foldl (fun t r => subst r t) s

/-- The in-memory text transform of `fix_app_error_usage` (the file I/O
surrounding it is modelled in the driver below): the seven global
substitutions applied in the script's order. -/
def fix_app_error_usage (s : List Char) : List Char :=
  applyRules rules s

/-- The transform lifted to `String`, as the file content is read and
written as a whole. -/
def fixString (s : String) : String :=
  String.mk (fix_app_error_usage s.data)

/-- The fixed path list of `main`. -/
def filesToFix : List String :=
  ["hostd/src/core/file_manager.rs",
   "hostd/src/core/security.rs",
   "hostd/src/core/monitoring.rs",
   "hostd/src/core/websocket.rs"]

/-- One loop iteration of `main` for path `p` over a filesystem modelled as
a partial map from paths to contents: if the file exists, print
`Fixing <p>...` and rewrite its content in place; otherwise print
`File not found: <p>` and leave the filesystem unchanged. -/
def processPath (fs : String → Option String) (p : String) :
    String × (String → Option String) :=
  match fs p with
  | some content =>
    ("Fixing " ++ p ++ "...", fun q => if q = p then some (fixString content) else fs q)
  | none => ("File not found: " ++ p, fs)

/-- The driver loop of `main`: process the paths strictly in order,
returning the printed lines (in order) and the final filesystem. -/
def runDriver (fs : String → Option String) :
    List String → List String × (String → Option String)
  | [] => ([], fs)
  | p :: ps =>
    let step := processPath fs p
    let restRun := runDriver step.2 ps
    (step.1 :: restRun.1, restRun.2)

/-- The script's `main`: run the driver on the fixed path list. -/
def mainRun (fs : String → Option String) : List String × (String → Option String) :=
  runDriver fs filesToFix

/-- Number of occurrences of `pat` as a substring of `s` (count of start
positions where `pat` is a prefix of the corresponding suffix). -/
def countOccs (pat s : List Char) : Nat :=
  ((List.range (s.length + 1)).filter (fun j => pat.isPrefixOf (s.drop j))).length

/-- `true` iff rule `r` matches at no position of `s`. -/
def noMatchAllB (r : Rule) (s : List Char) : Bool :=
  (List.range (s.length + 1)).all (fun j => (matchAt r (s.drop j)).isNone)

/-- `true` iff no rule of the script matches anywhere in `s`: `s` contains
no old-form pattern occurrence. -/
def noOldFormB (s : List Char) : Bool :=
  rules.all (fun r => noMatchAllB r s)

/-- `true` iff `cap` is a text rule `r` can capture: nonempty and free of
the stop character. -/
def capOkB (r : Rule) (cap : List Char) : Bool :=
  !cap.isEmpty && cap.all (fun c => !(c == r.stop))

/-- `true` iff rule `r` matches at no position inside the leading gap `g`
of the text `g ++ t`. -/
def gapOkB (r : Rule) (g t : List Char) : Bool :=
  (List.range g.length).all (fun j => (matchAt r (List.drop j (g ++ t))).isNone)

/-- The full old-form text of one occurrence of rule `r` with capture
`cap`. -/
def mkOld (r : Rule) (cap : List Char) : List Char :=
  r.pre ++ cap ++ r.suf

/-- Interleaving of gap texts with old-form occurrences of rule `r`:
`g₀ ++ old c₁ ++ g₁ ++ … ++ old c_N ++ g_N`. -/
def interIn (r : Rule) : List (List Char × List Char) → List Char → List Char
  | [], gN => gN
  | (g, cap) :: rest, gN => g ++ (mkOld r cap ++ interIn r rest gN)

/-- The same interleaving with every occurrence converted to the new
form. -/
def interOut (r : Rule) : List (List Char × List Char) → List Char → List Char
  | [], gN => gN
  | (g, cap) :: rest, gN => g ++ (r.repl cap ++ interOut r rest gN)

/-- `true` iff the interleaving is clean for rule `r`: every capture is
valid and the rule matches nowhere except at the designated occurrence
starts. -/
def inOkB (r : Rule) : List (List Char × List Char) → List Char → Bool
  | [], gN => noMatchAllB r gN
  | (g, cap) :: rest, gN =>
    gapOkB r g (mkOld r cap ++ interIn r rest gN) && capOkB r cap && inOkB r rest gN

/-- The six string-argument rules (every rule except `serverNotFoundRule`):
those whose pattern requires a double-quoted literal argument. -/
def strRules : List Rule :=
  [fileSystemRule, processRule, validationRule, internalRule,
   authenticationRule, authorizationRule]

/-- A permutation of the script's rule order that applies the
`ServerNotFound` rule first. -/
def permutedOrder : List Rule :=
  [serverNotFoundRule, fileSystemRule, processRule, validationRule,
   internalRule, authenticationRule, authorizationRule]

/-! ### Structural lemmas about the substitution scan -/

set_option maxRecDepth 100000

lemma matchAt_nil (r : Rule) : matchAt r [] = none := by
  simp [matchAt, capOf]

lemma takeWhile_middle (p : Char → Bool) (as : List Char) (x : Char) (bs : List Char)
    (ha : ∀ a ∈ as, p a = true) (hx : p x = false) :
    List.takeWhile p (as ++ x :: bs) = as := by
  induction as with
  | nil => simp [List.takeWhile_cons, hx]
  | cons a as ih =>
    have hpa : p a = true := ha a (by simp)
    simp [List.takeWhile_cons, hpa, ih (fun b hb => ha b (by simp [hb]))]

lemma takeWhile_append_drop (p : Char → Bool) (l : List Char) :
    l.takeWhile p ++ l.drop (l.takeWhile p).length = l := by
  induction l with
  | nil => simp
  | cons a l ih =>
    by_cases h : p a
    · simp [List.takeWhile_cons, h, ih]
    · simp [List.takeWhile_cons, h]

lemma matchAt_eq_some (r : Rule) (s cap rest : List Char)
    (h : matchAt r s = some (cap, rest)) :
    cap ≠ [] ∧ s = r.pre ++ (cap ++ (r.suf ++ rest)) := by
  unfold matchAt at h
  split at h
  · rename_i hc
    obtain ⟨hp, hcap, hsuf⟩ := hc
    simp only [Option.some.injEq, Prod.mk.injEq] at h
    obtain ⟨hc1, hc2⟩ := h
    obtain ⟨t, ht⟩ := List.isPrefixOf_iff_prefix.mp hp
    have hdrop : s.drop r.pre.length = t := by rw [← ht, List.drop_left]
    have hsplit : t = capOf r s ++ afterCap r s := by
      rw [afterCap, capOf, hdrop]
      exact (takeWhile_append_drop _ t).symm
    obtain ⟨u, hu⟩ := List.isPrefixOf_iff_prefix.mp hsuf
    have hrest : u = rest := by rw [← hc2, ← hu, List.drop_left]
    refine ⟨hc1 ▸ hcap, ?_⟩
    rw [← ht, hsplit, hc1, ← hu, hrest]
  · exact absurd h (by simp)

lemma matchAt_rest_lt (r : Rule) (s cap rest : List Char)
    (h : matchAt r s = some (cap, rest)) : rest.length < s.length := by
  obtain ⟨hcap, hs⟩ := matchAt_eq_some r s cap rest h
  have hpos : 0 < cap.length := List.length_pos.mpr hcap
  rw [hs]
  simp only [List.length_append]
  omega

lemma matchAt_build (r : Rule) (cap t suf' : List Char)
    (hsuf : r.suf = r.stop :: suf') (hcap : cap ≠ [])
    (hstop : ∀ c ∈ cap, (!(c == r.stop)) = true) :
    matchAt r (r.pre ++ (cap ++ (r.suf ++ t))) = some (cap, t) := by
  have hdrop : (r.pre ++ (cap ++ (r.suf ++ t))).drop r.pre.length = cap ++ (r.suf ++ t) :=
    List.drop_left _ _
  have hcapof : capOf r (r.pre ++ (cap ++ (r.suf ++ t))) = cap := by
    rw [capOf, hdrop, hsuf]
    have := takeWhile_middle (fun c => !(c == r.stop)) cap r.stop (suf' ++ t) hstop (by simp)
    simpa [List.cons_append] using this
  have hafter : afterCap r (r.pre ++ (cap ++ (r.suf ++ t))) = r.suf ++ t := by
    rw [afterCap, hdrop, hcapof, List.drop_left]
  have hpre : r.pre.isPrefixOf (r.pre ++ (cap ++ (r.suf ++ t))) :=
    List.isPrefixOf_iff_prefix.mpr ⟨_, rfl⟩
  have hsufp : r.suf.isPrefixOf (afterCap r (r.pre ++ (cap ++ (r.suf ++ t)))) := by
    rw [hafter]
    exact List.isPrefixOf_iff_prefix.mpr ⟨_, rfl⟩
  rw [matchAt, if_pos ⟨hpre, (by rw [hcapof]; exact hcap), hsufp⟩, hcapof, hafter,
    List.drop_left]

lemma substFuel_cons_none (r : Rule) (n : Nat) (c : Char) (cs : List Char)
    (h : matchAt r (c :: cs) = none) :
    substFuel r (n + 1) (c :: cs) = c :: substFuel r n cs := by
  simp [substFuel, h]

lemma substFuel_cons_some (r : Rule) (n : Nat) (c : Char) (cs cap rest : List Char)
    (h : matchAt r (c :: cs) = some (cap, rest)) :
    substFuel r (n + 1) (c :: cs) = r.repl cap ++ substFuel r n rest := by
  simp [substFuel, h]

lemma substFuel_irrel (r : Rule) :
    ∀ n m s, s.length ≤ n → s.length ≤ m → substFuel r n s = substFuel r m s := by
  intro n
  induction n with
  | zero =>
    intro m s hn _
    have hs : s = [] := List.eq_nil_of_length_eq_zero (Nat.le_zero.mp hn)
    subst hs
    cases m <;> rfl
  | succ n ih =>
    intro m s hn hm
    cases s with
    | nil => cases m <;> rfl
    | cons c cs =>
      cases m with
      | zero => exact absurd hm (by simp)
      | succ m =>
        have hcs : cs.length ≤ n := by simp at hn; omega
        have hcs' : cs.length ≤ m := by simp at hm; omega
        cases hmt : matchAt r (c :: cs) with
        | none =>
          rw [substFuel_cons_none r n c cs hmt, substFuel_cons_none r m c cs hmt,
            ih m cs hcs hcs']
        | some pr =>
          obtain ⟨cap, rest⟩ := pr
          have hlt := matchAt_rest_lt r (c :: cs) cap rest hmt
          have hr1 : rest.length ≤ n := by simp at hlt; omega
          have hr2 : rest.length ≤ m := by simp at hlt; omega
          rw [substFuel_cons_some r n c cs cap rest hmt,
            substFuel_cons_some r m c cs cap rest hmt, ih m rest hr1 hr2]

lemma subst_nil (r : Rule) : subst r [] = [] := rfl

lemma subst_cons_nomatch (r : Rule) (c : Char) (cs : List Char)
    (h : matchAt r (c :: cs) = none) : subst r (c :: cs) = c :: subst r cs := by
  rw [subst, show (c :: cs).length = cs.length + 1 from rfl,
    substFuel_cons_none r cs.length c cs h]
  rfl

lemma subst_match (r : Rule) (s cap rest : List Char)
    (h : matchAt r s = some (cap, rest)) :
    subst r s = r.repl cap ++ subst r rest := by
  cases s with
  | nil => rw [matchAt_nil] at h; exact absurd h (by simp)
  | cons c cs =>
    have hlt := matchAt_rest_lt r (c :: cs) cap rest h
    rw [subst, show (c :: cs).length = cs.length + 1 from rfl,
      substFuel_cons_some r cs.length c cs cap rest h]
    congr 1
    exact substFuel_irrel r cs.length rest.length rest (by simp at hlt; omega) le_rfl

lemma subst_append_gap (r : Rule) :
    ∀ (g t : List Char), (∀ j, j < g.length → matchAt r (List.drop j (g ++ t)) = none) →
      subst r (g ++ t) = g ++ subst r t := by
  intro g
  induction g with
  | nil => intro t _; simp
  | cons c g ih =>
    intro t h
    have h0 : matchAt r (c :: (g ++ t)) = none := by
      have := h 0 (by simp)
      simpa using this
    rw [List.cons_append, subst_cons_nomatch r c (g ++ t) h0, ih t ?_]
    · rfl
    intro j hj
    have := h (j + 1) (by simp; omega)
    simpa [List.drop_succ_cons] using this

lemma noMatchAll (r : Rule) (s : List Char) (h : noMatchAllB r s = true) :
    ∀ j, matchAt r (s.drop j) = none := by
  intro j
  by_cases hj : j ≤ s.length
  · have hm := List.all_eq_true.mp h j (List.mem_range.mpr (by omega))
    exact Option.isNone_iff_eq_none.mp hm
  · rw [List.drop_eq_nil_of_le (by omega), matchAt_nil]

lemma subst_id_of_noMatch (r : Rule) (s : List Char) (h : noMatchAllB r s = true) :
    subst r s = s := by
  have hg := subst_append_gap r s []
    (fun j _ => by simpa using noMatchAll r s h j)
  simpa [subst_nil] using hg

lemma capOkB_spec (r : Rule) (cap : List Char) (h : capOkB r cap = true) :
    cap ≠ [] ∧ ∀ c ∈ cap, (!(c == r.stop)) = true := by
  rw [capOkB, Bool.and_eq_true] at h
  obtain ⟨h1, h2⟩ := h
  refine ⟨?_, List.all_eq_true.mp h2⟩
  intro hnil
  rw [hnil] at h1
  simp at h1

lemma gapOkB_spec (r : Rule) (g t : List Char) (h : gapOkB r g t = true) :
    ∀ j, j < g.length → matchAt r (List.drop j (g ++ t)) = none := by
  intro j hj
  have hm := List.all_eq_true.mp h j (List.mem_range.mpr hj)
  exact Option.isNone_iff_eq_none.mp hm

lemma subst_interIn (r : Rule) (suf' : List Char) (hsuf : r.suf = r.stop :: suf') :
    ∀ (segs : List (List Char × List Char)) (gN : List Char),
      inOkB r segs gN = true → subst r (interIn r segs gN) = interOut r segs gN := by
  intro segs
  induction segs with
  | nil => intro gN h; exact subst_id_of_noMatch r gN h
  | cons seg rest ih =>
    obtain ⟨g, cap⟩ := seg
    intro gN h
    rw [inOkB, Bool.and_eq_true, Bool.and_eq_true] at h
    obtain ⟨⟨hgap, hcap⟩, hrest⟩ := h
    obtain ⟨hcap1, hcap2⟩ := capOkB_spec r cap hcap
    rw [interIn, interOut,
      subst_append_gap r g (mkOld r cap ++ interIn r rest gN) (gapOkB_spec r g _ hgap)]
    congr 1
    have hshape : mkOld r cap ++ interIn r rest gN =
        r.pre ++ (cap ++ (r.suf ++ interIn r rest gN)) := by
      rw [mkOld]
      simp [List.append_assoc]
    rw [hshape,
      subst_match r _ cap (interIn r rest gN)
        (matchAt_build r cap (interIn r rest gN) suf' hsuf hcap1 hcap2),
      ih gN hrest]

lemma suf_head_cons (r : Rule) (h : r.suf.head? = some r.stop) :
    r.suf = r.stop :: r.suf.tail := by
  cases hs : r.suf with
  | nil => rw [hs] at h; simp at h
  | cons a l => rw [hs] at h; simp at h; simp [h]

lemma rules_suf_head : ∀ r ∈ rules, r.suf.head? = some r.stop := by decide

lemma applyRules_append (l₁ l₂ : List Rule) (s : List Char) :
    applyRules (l₁ ++ l₂) s = applyRules l₂ (applyRules l₁ s) :=
  List.foldl_append _ _ _ _

lemma applyRules_id (l : List Rule) (s : List Char) (h : ∀ r ∈ l, subst r s = s) :
    applyRules l s = s := by
  induction l with
  | nil => rfl
  | cons r l ih =>
    show applyRules l (subst r s) = s
    rw [h r (by simp)]
    exact ih (fun q hq => h q (by simp [hq]))

lemma fix_id_of_clean (s : List Char) (h : noOldFormB s = true) :
    fix_app_error_usage s = s := by
  apply applyRules_id
  intro r hr
  exact subst_id_of_noMatch r s (List.all_eq_true.mp h r hr)

lemma processPath_isSome (fs : String → Option String) (p q : String) :
    ((processPath fs p).2 q).isSome = (fs q).isSome := by
  unfold processPath
  cases h : fs p with
  | none => rfl
  | some c =>
    by_cases hq : q = p
    · subst hq; simp [h]
    · simp [hq]

lemma runDriver_lines (paths : List String) :
    ∀ fs, (runDriver fs paths).1 = paths.map
      (fun p => if (fs p).isSome then "Fixing " ++ p ++ "..."
        else "File not found: " ++ p) := by
  induction paths with
  | nil => intro fs; rfl
  | cons p ps ih =>
    intro fs
    show (processPath fs p).1 :: (runDriver (processPath fs p).2 ps).1 = _
    rw [List.map_cons, ih]
    congr 1
    · unfold processPath
      cases h : fs p <;> simp [h]
    · apply List.map_congr_left
      intro q _
      rw [processPath_isSome fs p q]

lemma runDriver_fs_foldl (paths : List String) :
    ∀ fs, (runDriver fs paths).2 =
      paths.foldl (fun g p => (processPath g p).2) fs := by
  induction paths with
  | nil => intro fs; rfl
  | cons p ps ih => intro fs; exact ih _

lemma runDriver_single_write (fs : String → Option String) (p c : String)
    (h : fs p = some c) : (runDriver fs [p]).2 p = some (fixString c) := by
  show (processPath fs p).2 p = some (fixString c)
  simp [processPath, h]

lemma strRules_stop_suf : ∀ r ∈ strRules, r.stop = '"' ∧ r.suf = '"' :: [')'] := by
  decide

lemma permutedOrder_perm : List.Perm permutedOrder rules := by
  have h : List.Perm
      ([fileSystemRule, processRule, validationRule] ++
        serverNotFoundRule :: [internalRule, authenticationRule, authorizationRule])
      (serverNotFoundRule ::
        ([fileSystemRule, processRule, validationRule] ++
          [internalRule, authenticationRule, authorizationRule])) :=
    List.perm_middle
  exact h.symm

/-! ### Claim theorems -/

/-- C6: a text in which none of the seven old-form patterns occurs anywhere
is returned unchanged, byte for byte, by the transform.  Every rule
application is a total function (`subst` always returns), so zero matches
is a silent, valid outcome and can never fail. -/
theorem no_old_form_unchanged (s : List Char) (h : noOldFormB s = true) :
    fix_app_error_usage s = s :=
  fix_id_of_clean s h

theorem no_old_form_unchanged_witness :
    noOldFormB "fn main() \x7b let x = 1; \x7d".toList = true ∧
    fix_app_error_usage "fn main() \x7b let x = 1; \x7d".toList =
      "fn main() \x7b let x = 1; \x7d".toList :=
  ⟨by decide, no_old_form_unchanged "fn main() \x7b let x = 1; \x7d".toList (by decide)⟩

/-- C3 (counterexample): the transform is not idempotent on every input.
For `AppError::ServerNotFound(AppError::ServerNotFound(x)` the single
rule-4 match captures `AppError::ServerNotFound(x` and re-inserts it
verbatim into the replacement, where the template's following text
supplies a new closing parenthesis, so a second run rewrites the output
again. -/
theorem idempotence_counterexample :
    fix_app_error_usage (fix_app_error_usage
      "AppError::ServerNotFound(AppError::ServerNotFound(x)".toList) ≠
    fix_app_error_usage
      "AppError::ServerNotFound(AppError::ServerNotFound(x)".toList := by
  decide

/-- C3 (amended): the transform is idempotent on every text whose
transformed output contains no occurrence of any old-form pattern; in
particular text containing only already-converted new-form structures is
left unchanged. -/
theorem idempotent_on_clean_output (s : List Char)
    (h : noOldFormB (fix_app_error_usage s) = true) :
    fix_app_error_usage (fix_app_error_usage s) = fix_app_error_usage s :=
  fix_id_of_clean (fix_app_error_usage s) h

theorem idempotent_on_clean_output_witness :
    noOldFormB (fix_app_error_usage "AppError::Internal(\"boom\")".toList) = true ∧
    fix_app_error_usage (fix_app_error_usage "AppError::Internal(\"boom\")".toList) =
      fix_app_error_usage "AppError::Internal(\"boom\")".toList :=
  ⟨by decide, idempotent_on_clean_output "AppError::Internal(\"boom\")".toList (by decide)⟩

/-- C5 (counterexample): the composition of the seven rules is not
order-independent.  `permutedOrder` is a permutation of the documented
order, yet on `AppError::FileSystem("AppError::ServerNotFound(abc")` the
two compositions produce different outputs: in the documented order rule 1
fires first and its replacement then feeds a rule-4 match, while with
rule 4 first the rule-4 replacement destroys the rule-1 match. -/
theorem order_independence_counterexample :
    List.Perm permutedOrder rules ∧
    applyRules permutedOrder
        "AppError::FileSystem(\"AppError::ServerNotFound(abc\")".toList ≠
      fix_app_error_usage
        "AppError::FileSystem(\"AppError::ServerNotFound(abc\")".toList :=
  ⟨permutedOrder_perm, by decide⟩

/-- C5 (amended): on any text in which no old-form pattern occurs, every
permutation of the seven substitutions produces the same output as the
documented order (namely the text itself); on texts with occurrences,
different orders can disagree. -/
theorem order_independent_on_clean (order : List Rule) (s : List Char)
    (hperm : List.Perm order rules) (h : noOldFormB s = true) :
    applyRules order s = fix_app_error_usage s := by
  rw [fix_id_of_clean s h]
  apply applyRules_id
  intro r hr
  exact subst_id_of_noMatch r s (List.all_eq_true.mp h r (hperm.mem_iff.mp hr))

theorem order_independent_on_clean_witness :
    List.Perm permutedOrder rules ∧ noOldFormB "let x = 1;".toList = true ∧
    applyRules permutedOrder "let x = 1;".toList =
      fix_app_error_usage "let x = 1;".toList :=
  ⟨permutedOrder_perm, by decide,
    order_independent_on_clean permutedOrder "let x = 1;".toList permutedOrder_perm
      (by decide)⟩

/-- C2: if the input text is an interleaving of gap texts with `N`
occurrences of rule `r`'s old-form pattern (valid captures, the rule
matching nowhere except at the designated occurrence starts), and no other
rule of the script has a match in the input (for the rules applied before
`r`) or in the converted text (for the rules applied after `r`), then the
transform converts exactly the `N` occurrences, in order, leaving every
character outside the matched spans unchanged; the substitution is global
over the whole text. -/
theorem multiple_occurrences (l₁ l₂ : List Rule) (r : Rule)
    (segs : List (List Char × List Char)) (gN : List Char)
    (hsplit : rules = l₁ ++ r :: l₂)
    (hin : inOkB r segs gN = true)
    (hbefore : ∀ q ∈ l₁, noMatchAllB q (interIn r segs gN) = true)
    (hafter : ∀ q ∈ l₂, noMatchAllB q (interOut r segs gN) = true) :
    fix_app_error_usage (interIn r segs gN) = interOut r segs gN := by
  have hr : r ∈ rules := by rw [hsplit]; simp
  have hsuf := suf_head_cons r (rules_suf_head r hr)
  have hsub := subst_interIn r r.suf.tail hsuf segs gN hin
  rw [fix_app_error_usage, hsplit, applyRules_append,
    applyRules_id l₁ _ (fun q hq => subst_id_of_noMatch q _ (hbefore q hq))]
  show applyRules l₂ (subst r (interIn r segs gN)) = _
  rw [hsub]
  exact applyRules_id l₂ _ (fun q hq => subst_id_of_noMatch q _ (hafter q hq))

theorem multiple_occurrences_witness :
    rules = [fileSystemRule, processRule, validationRule, serverNotFoundRule] ++
      internalRule :: [authenticationRule, authorizationRule] ∧
    inOkB internalRule [("x ".toList, "boom".toList), (" mid ".toList, "again".toList)]
      " y".toList = true ∧
    (∀ q ∈ [fileSystemRule, processRule, validationRule, serverNotFoundRule],
      noMatchAllB q (interIn internalRule
        [("x ".toList, "boom".toList), (" mid ".toList, "again".toList)] " y".toList) = true) ∧
    (∀ q ∈ [authenticationRule, authorizationRule],
      noMatchAllB q (interOut internalRule
        [("x ".toList, "boom".toList), (" mid ".toList, "again".toList)] " y".toList) = true) ∧
    fix_app_error_usage (interIn internalRule
        [("x ".toList, "boom".toList), (" mid ".toList, "again".toList)] " y".toList) =
      interOut internalRule
        [("x ".toList, "boom".toList), (" mid ".toList, "again".toList)] " y".toList :=
  ⟨rfl, by decide, by decide, by decide,
    multiple_occurrences [fileSystemRule, processRule, validationRule, serverNotFoundRule]
      [authenticationRule, authorizationRule] internalRule
      [("x ".toList, "boom".toList), (" mid ".toList, "again".toList)] " y".toList
      rfl (by decide) (by decide) (by decide)⟩

/-- C1: for each of the seven rule shapes, the transform sends a minimal
string holding exactly one old-form occurrence to a string holding exactly
one occurrence of the corresponding new structured form, the captured
literal preserved verbatim in the `message` (for rule 4, `server_id`)
field; in particular for `AppError::Internal("boom")` the output contains
`AppError::InternalError \x7b`, `message: "boom".to_string(),`,
`operation: "unknown".to_string(),` and a closing brace, each exactly
once. -/
theorem seven_rules_minimal :
    (fix_app_error_usage "AppError::FileSystem(\"m\")".toList = "AppError::FileSystemError \x7b\n                message: \"m\".to_string(),\n                path: \"unknown\".to_string(),\n                operation: \"unknown\".to_string(),\n            \x7d".toList ∧
      countOccs "AppError::FileSystemError \x7b\n                message: \"m\".to_string(),\n                path: \"unknown\".to_string(),\n                operation: \"unknown\".to_string(),\n            \x7d".toList
        (fix_app_error_usage "AppError::FileSystem(\"m\")".toList) = 1) ∧
    (fix_app_error_usage "AppError::Process(\"m\")".toList = "AppError::ProcessError \x7b\n                message: \"m\".to_string(),\n                process_id: None,\n                operation: \"unknown\".to_string(),\n            \x7d".toList ∧
      countOccs "AppError::ProcessError \x7b\n                message: \"m\".to_string(),\n                process_id: None,\n                operation: \"unknown\".to_string(),\n            \x7d".toList
        (fix_app_error_usage "AppError::Process(\"m\")".toList) = 1) ∧
    (fix_app_error_usage "AppError::Validation(\"m\")".toList = "AppError::ValidationError \x7b\n                message: \"m\".to_string(),\n                field: \"unknown\".to_string(),\n                value: \"unknown\".to_string(),\n            \x7d".toList ∧
      countOccs "AppError::ValidationError \x7b\n                message: \"m\".to_string(),\n                field: \"unknown\".to_string(),\n                value: \"unknown\".to_string(),\n            \x7d".toList
        (fix_app_error_usage "AppError::Validation(\"m\")".toList) = 1) ∧
    (fix_app_error_usage "AppError::ServerNotFound(id)".toList = "AppError::ServerError \x7b\n                message: \"Server not found\".to_string(),\n                server_id: id,\n                operation: \"get\".to_string(),\n            \x7d".toList ∧
      countOccs "AppError::ServerError \x7b\n                message: \"Server not found\".to_string(),\n                server_id: id,\n                operation: \"get\".to_string(),\n            \x7d".toList
        (fix_app_error_usage "AppError::ServerNotFound(id)".toList) = 1) ∧
    (fix_app_error_usage "AppError::Internal(\"boom\")".toList = "AppError::InternalError \x7b\n                message: \"boom\".to_string(),\n                operation: \"unknown\".to_string(),\n            \x7d".toList ∧
      countOccs "AppError::InternalError \x7b\n                message: \"boom\".to_string(),\n                operation: \"unknown\".to_string(),\n            \x7d".toList
        (fix_app_error_usage "AppError::Internal(\"boom\")".toList) = 1) ∧
    (fix_app_error_usage "AppError::Authentication(\"m\")".toList = "AppError::AuthenticationError \x7b\n                message: \"m\".to_string(),\n                reason: crate::core::error_handler::AuthErrorReason::InternalError,\n            \x7d".toList ∧
      countOccs "AppError::AuthenticationError \x7b\n                message: \"m\".to_string(),\n                reason: crate::core::error_handler::AuthErrorReason::InternalError,\n            \x7d".toList
        (fix_app_error_usage "AppError::Authentication(\"m\")".toList) = 1) ∧
    (fix_app_error_usage "AppError::Authorization(\"m\")".toList = "AppError::AuthorizationError \x7b\n                message: \"m\".to_string(),\n                required_permission: \"unknown\".to_string(),\n                user_role: \"unknown\".to_string(),\n            \x7d".toList ∧
      countOccs "AppError::AuthorizationError \x7b\n                message: \"m\".to_string(),\n                required_permission: \"unknown\".to_string(),\n                user_role: \"unknown\".to_string(),\n            \x7d".toList
        (fix_app_error_usage "AppError::Authorization(\"m\")".toList) = 1) ∧
    countOccs "AppError::InternalError \x7b".toList (fix_app_error_usage "AppError::Internal(\"boom\")".toList) = 1 ∧
    countOccs "message: \"boom\".to_string(),".toList (fix_app_error_usage "AppError::Internal(\"boom\")".toList) = 1 ∧
    countOccs "operation: \"unknown\".to_string(),".toList (fix_app_error_usage "AppError::Internal(\"boom\")".toList) = 1 ∧
    countOccs "\x7d".toList (fix_app_error_usage "AppError::Internal(\"boom\")".toList) = 1 := by
  refine ⟨⟨?_, ?_⟩, ⟨?_, ?_⟩, ⟨?_, ?_⟩, ⟨?_, ?_⟩, ⟨?_, ?_⟩, ⟨?_, ?_⟩, ⟨?_, ?_⟩,
    ?_, ?_, ?_, ?_⟩ <;> decide

/-- C4: rule 4 matches `AppError::ServerNotFound(<expr>)` for any nonempty
`<expr>` free of closing parentheses, the capture stopping at the first
closing parenthesis after the opening one; the replacement places `<expr>`
verbatim and unquoted in the `server_id` field, with
`message: "Server not found".to_string(),` and
`operation: "get".to_string(),`; all such occurrences in a clean
interleaving are replaced. -/
theorem server_not_found_rule_spec (segs : List (List Char × List Char))
    (gN cap rest e : List Char)
    (hcap : capOkB serverNotFoundRule cap = true)
    (hin : inOkB serverNotFoundRule segs gN = true) :
    matchAt serverNotFoundRule
        (serverNotFoundRule.pre ++ (cap ++ (')' :: rest))) = some (cap, rest) ∧
    serverNotFoundRule.repl e =
      "AppError::ServerError \x7b\n                message: \"Server not found\".to_string(),\n                server_id: ".toList ++ e ++
        ",\n                operation: \"get\".to_string(),\n            \x7d".toList ∧
    subst serverNotFoundRule (interIn serverNotFoundRule segs gN) =
      interOut serverNotFoundRule segs gN := by
  obtain ⟨h1, h2⟩ := capOkB_spec serverNotFoundRule cap hcap
  refine ⟨?_, rfl, subst_interIn serverNotFoundRule [] (by decide) segs gN hin⟩
  exact matchAt_build serverNotFoundRule cap rest [] (by decide) h1 h2

theorem server_not_found_rule_spec_witness :
    capOkB serverNotFoundRule "id".toList = true ∧
    inOkB serverNotFoundRule [("let e = ".toList, "id".toList)] ";".toList = true ∧
    (matchAt serverNotFoundRule
        (serverNotFoundRule.pre ++ ("id".toList ++ (')' :: ";".toList))) =
          some ("id".toList, ";".toList) ∧
      serverNotFoundRule.repl "id".toList =
        "AppError::ServerError \x7b\n                message: \"Server not found\".to_string(),\n                server_id: ".toList ++ "id".toList ++
          ",\n                operation: \"get\".to_string(),\n            \x7d".toList ∧
      subst serverNotFoundRule
          (interIn serverNotFoundRule [("let e = ".toList, "id".toList)] ";".toList) =
        interOut serverNotFoundRule [("let e = ".toList, "id".toList)] ";".toList) :=
  ⟨by decide, by decide,
    server_not_found_rule_spec [("let e = ".toList, "id".toList)] ";".toList
      "id".toList ";".toList "id".toList (by decide) (by decide)⟩

/-- C7 (counterexample): an occurrence whose quoted literal contains an
embedded escaped double quote is not always left alone: in
`AppError::Internal("a\")b")` the character after the escaped quote is a
closing parenthesis, so the rule matches with capture `a\` and the
transform rewrites part of the occurrence. -/
theorem escaped_quote_counterexample :
    matchAt internalRule "AppError::Internal(\"a\\\")b\")".toList =
      some ("a\\".toList, "b\")".toList) ∧
    fix_app_error_usage "AppError::Internal(\"a\\\")b\")".toList ≠
      "AppError::Internal(\"a\\\")b\")".toList :=
  ⟨by decide, by decide⟩

/-- C7 (amended): the string rules match a nonempty run of non-quote
characters delimited by double quotes, with no awareness of escaped
quotes; an occurrence whose literal contains an embedded escaped double
quote is not matched at its start — and so is left unchanged — provided
the character following the escaped quote is not a closing parenthesis
(e.g. `AppError::Internal("a\"b")` is returned unchanged). -/
theorem escaped_quote_no_match (r : Rule) (m1 m2 : List Char)
    (hr : r ∈ strRules)
    (hm1 : ∀ c ∈ m1, (!(c == '"')) = true)
    (hm2 : m2.head? ≠ some ')') :
    matchAt r (r.pre ++ (m1 ++ '\\' :: '"' :: m2)) = none ∧
    fix_app_error_usage "AppError::Internal(\"a\\\"b\")".toList =
      "AppError::Internal(\"a\\\"b\")".toList := by
  obtain ⟨hstop, hsuf⟩ := strRules_stop_suf r hr
  refine ⟨?_, by decide⟩
  have hshape : m1 ++ '\\' :: '"' :: m2 = (m1 ++ ['\\']) ++ '"' :: m2 := by simp
  have hcap : capOf r (r.pre ++ (m1 ++ '\\' :: '"' :: m2)) = m1 ++ ['\\'] := by
    rw [capOf, List.drop_left, hshape]
    refine takeWhile_middle _ (m1 ++ ['\\']) '"' m2 ?_ (by rw [hstop]; decide)
    intro a ha
    rcases List.mem_append.mp ha with h | h
    · rw [hstop]; exact hm1 a h
    · simp at h; subst h; rw [hstop]; decide
  have hafter : afterCap r (r.pre ++ (m1 ++ '\\' :: '"' :: m2)) = '"' :: m2 := by
    rw [afterCap, List.drop_left, hcap, hshape, List.drop_left]
  have hsufp : r.suf.isPrefixOf (afterCap r (r.pre ++ (m1 ++ '\\' :: '"' :: m2))) = false := by
    rw [hafter, hsuf]
    cases m2 with
    | nil => decide
    | cons b bs =>
      have hb : (')' == b) = false := by
        cases hbeq : (')' == b)
        · rfl
        · exact absurd
            (congrArg some (eq_of_beq hbeq).symm : (b :: bs).head? = some ')') hm2
      simp [List.isPrefixOf, hb]
  rw [matchAt, if_neg]
  rintro ⟨-, -, hp⟩
  rw [hsufp] at hp
  exact absurd hp (by simp)

/-- C9: an old-form call with an empty string literal is never rewritten:
each string rule requires a nonempty message, so its pattern cannot match
where the opening quote is immediately followed by a quote, and each of
the six `AppError::<Tag>("")` texts is returned unchanged by the
transform. -/
theorem empty_literal_unchanged (r : Rule) (rest : List Char) (hr : r ∈ strRules) :
    matchAt r (r.pre ++ '"' :: rest) = none ∧
    fix_app_error_usage "AppError::FileSystem(\"\")".toList =
      "AppError::FileSystem(\"\")".toList ∧
    fix_app_error_usage "AppError::Process(\"\")".toList =
      "AppError::Process(\"\")".toList ∧
    fix_app_error_usage "AppError::Validation(\"\")".toList =
      "AppError::Validation(\"\")".toList ∧
    fix_app_error_usage "AppError::Internal(\"\")".toList =
      "AppError::Internal(\"\")".toList ∧
    fix_app_error_usage "AppError::Authentication(\"\")".toList =
      "AppError::Authentication(\"\")".toList ∧
    fix_app_error_usage "AppError::Authorization(\"\")".toList =
      "AppError::Authorization(\"\")".toList := by
  obtain ⟨hstop, -⟩ := strRules_stop_suf r hr
  refine ⟨?_, by decide, by decide, by decide, by decide, by decide, by decide⟩
  have hcap : capOf r (r.pre ++ '"' :: rest) = [] := by
    rw [capOf, List.drop_left]
    simp [List.takeWhile_cons, hstop]
  rw [matchAt, if_neg]
  rintro ⟨-, hc, -⟩
  exact hc hcap

theorem empty_literal_unchanged_witness :
    internalRule ∈ strRules ∧
    (matchAt internalRule (internalRule.pre ++ '"' :: ")x".toList) = none ∧
      fix_app_error_usage "AppError::FileSystem(\"\")".toList =
        "AppError::FileSystem(\"\")".toList ∧
      fix_app_error_usage "AppError::Process(\"\")".toList =
        "AppError::Process(\"\")".toList ∧
      fix_app_error_usage "AppError::Validation(\"\")".toList =
        "AppError::Validation(\"\")".toList ∧
      fix_app_error_usage "AppError::Internal(\"\")".toList =
        "AppError::Internal(\"\")".toList ∧
      fix_app_error_usage "AppError::Authentication(\"\")".toList =
        "AppError::Authentication(\"\")".toList ∧
      fix_app_error_usage "AppError::Authorization(\"\")".toList =
        "AppError::Authorization(\"\")".toList) :=
  ⟨by simp [strRules], empty_literal_unchanged internalRule ")x".toList (by simp [strRules])⟩

/-- C10: rule 4 is not restricted to non-string arguments: a quoted
argument containing no closing parenthesis is captured with its quotes,
which are preserved verbatim in the emitted `server_id` field; e.g.
`AppError::ServerNotFound("abc")` is rewritten with `server_id: "abc",`. -/
theorem server_not_found_quoted_arg (msg rest : List Char)
    (h : ∀ c ∈ msg, (!(c == ')')) = true) :
    matchAt serverNotFoundRule
        (serverNotFoundRule.pre ++ (('"' :: (msg ++ ['"'])) ++ (')' :: rest))) =
      some ('"' :: (msg ++ ['"']), rest) ∧
    fix_app_error_usage "AppError::ServerNotFound(\"abc\")".toList =
      "AppError::ServerError \x7b\n                message: \"Server not found\".to_string(),\n                server_id: \"abc\",\n                operation: \"get\".to_string(),\n            \x7d".toList ∧
    countOccs "server_id: \"abc\",".toList
      (fix_app_error_usage "AppError::ServerNotFound(\"abc\")".toList) = 1 := by
  refine ⟨?_, by decide, by decide⟩
  have hcap : ('"' :: (msg ++ ['"'])) ≠ [] := by simp
  have hstop : ∀ c ∈ ('"' :: (msg ++ ['"'])), (!(c == serverNotFoundRule.stop)) = true := by
    intro c hc
    rcases List.mem_cons.mp hc with h1 | h2
    · subst h1; decide
    · rcases List.mem_append.mp h2 with h3 | h4
      · exact h c h3
      · simp at h4; subst h4; decide
  exact matchAt_build serverNotFoundRule ('"' :: (msg ++ ['"'])) rest [] (by decide)
    hcap hstop

theorem server_not_found_quoted_arg_witness :
    (∀ c ∈ "abc".toList, (!(c == ')')) = true) ∧
    (matchAt serverNotFoundRule
        (serverNotFoundRule.pre ++ (('"' :: ("abc".toList ++ ['"'])) ++ (')' :: [']']))) =
        some ('"' :: ("abc".toList ++ ['"']), [']']) ∧
      fix_app_error_usage "AppError::ServerNotFound(\"abc\")".toList =
        "AppError::ServerError \x7b\n                message: \"Server not found\".to_string(),\n                server_id: \"abc\",\n                operation: \"get\".to_string(),\n            \x7d".toList ∧
      countOccs "server_id: \"abc\",".toList
        (fix_app_error_usage "AppError::ServerNotFound(\"abc\")".toList) = 1) :=
  ⟨by decide, server_not_found_quoted_arg "abc".toList [']'] (by decide)⟩

/-- C8: the driver processes the path list strictly in order, printing
exactly `Fixing <path>...` for each existing path (and performing the
read-transform-write cycle on it) and exactly `File not found: <path>`
for each missing path, continuing without failure; the run is a total
function, so it completes even when every path is missing. -/
theorem driver_spec (fs : String → Option String) (paths : List String) :
    (runDriver fs paths).1 = paths.map
        (fun p => if (fs p).isSome then "Fixing " ++ p ++ "..."
          else "File not found: " ++ p) ∧
    (runDriver fs paths).2 = paths.foldl (fun g p => (processPath g p).2) fs ∧
    ∀ p c, fs p = some c → (runDriver fs [p]).2 p = some (fixString c) :=
  ⟨runDriver_lines paths fs, runDriver_fs_foldl paths fs,
    fun p c h => runDriver_single_write fs p c h⟩

theorem driver_spec_witness :
    (runDriver (fun q => if q = "a.rs" then some "AppError::Internal(\"boom\")" else none)
        ["a.rs", "b.rs"]).1 = ["Fixing a.rs...", "File not found: b.rs"] := by
  rw [(driver_spec (fun q => if q = "a.rs" then some "AppError::Internal(\"boom\")" else none)
    ["a.rs", "b.rs"]).1]
  rfl

theorem escaped_quote_no_match_witness :
    internalRule ∈ strRules ∧
    (∀ c ∈ "a".toList, (!(c == '"')) = true) ∧
    ("b\")".toList).head? ≠ some ')' ∧
    (matchAt internalRule
        (internalRule.pre ++ ("a".toList ++ '\\' :: '"' :: "b\")".toList)) = none ∧
      fix_app_error_usage "AppError::Internal(\"a\\\"b\")".toList =
        "AppError::Internal(\"a\\\"b\")".toList) :=
  ⟨by simp [strRules], by decide, by decide,
    escaped_quote_no_match internalRule "a".toList "b\")".toList (by simp [strRules])
      (by decide) (by decide)⟩
